import Mathlib

/-!
Shallow embedding of the version-description-updater filter plugins:

* src/filter_plugins/pom_filters.py            (namespace PomFilters)
* src/playbooks/filter_plugins/maven_filters.py (namespace MavenFilters)
* src/roles/pom_reader/filter_plugins/pom_filters.py (namespace PomReader)

Python strings are modelled by Lean `String` (a list of characters in this
toolchain).  Python dictionaries are modelled by association lists in
insertion order with distinct keys maintained by `dinsert`; `dget` is
`d.get`, `d[k] = v` is `dinsert`.  Python `str.strip()` is modelled by
`pyStrip` (ASCII whitespace), `str.lower()` by `pyLower` (ASCII case
folding), and string comparison by code points via `strLtB`, exactly as
Python compares strings of ASCII text.
-/

/-- Whitespace predicate modelling the characters removed by Python
str.strip (space, tab, newline, carriage return, form feed, vertical tab). -/
def pyWS (c : Char) : Bool :=
  decide (c.toNat = 32 ∨ c.toNat = 9 ∨ c.toNat = 10 ∨ c.toNat = 13 ∨ c.toNat = 12 ∨ c.toNat = 11)

/-- List-of-characters core of Python str.strip: drop whitespace from both ends. -/
def pyStripList (l : List Char) : List Char :=
  ((l.dropWhile pyWS).reverse.dropWhile pyWS).reverse

/-- Python str.strip on strings. -/
def pyStrip (s : String) : String :=
  ⟨pyStripList s.data⟩

/-- ASCII lower-casing of one character, as Python str.lower does on ASCII input. -/
def pyLowerChar (c : Char) : Char :=
  if h : 65 ≤ c.toNat ∧ c.toNat ≤ 90 then
    ⟨⟨c.toNat + 32, by omega⟩, by
      have h2 : c.toNat + 32 < 55296 := by omega
      simp [UInt32.isValidChar, Nat.isValidChar, UInt32.toNat]
      omega⟩
  else c

/-- Python str.lower, character-wise. -/
def pyLower (s : String) : String :=
  ⟨s.data.map pyLowerChar⟩

/-- Code-point-wise lexicographic strict comparison of character lists,
modelling how Python compares strings. -/
def strLtB : List Char → List Char → Bool
  | _, [] => false
  | [], _ :: _ => true
  | a :: as, b :: bs =>
    if a.toNat < b.toNat then true
    else if b.toNat < a.toNat then false
    else strLtB as bs

/-- Python tuple comparison of (key, value) pairs of strings: key first,
value breaks ties, as used by sorted on dict items. -/
def pairLeB (p q : String × String) : Bool :=
  strLtB p.1.data q.1.data || (decide (p.1 = q.1) && !(strLtB q.2.data p.2.data))

/-- Propositional form of the pair ordering, for the sorting lemmas. -/
def pairR (p q : String × String) : Prop :=
  pairLeB p q = true

instance : DecidableRel pairR :=
  fun p q => instDecidableEqBool (pairLeB p q) true

/-- Python sorted on a list of dict items (pairs), modelled by insertion
sort under the Python tuple order; the order is total and antisymmetric,
so any sorted rearrangement is unique. -/
def pySortPairs (l : List (String × String)) : List (String × String) :=
  List.insertionSort pairR l

/-- Python d.get(k): the value at the first (and in a dict, only) entry with
key k, if any. -/
def dget (d : List (String × String)) (k : String) : Option String :=
  (d.find? (fun e => decide (e.1 = k))).map (fun e => e.2)

/-- Python d.get(k, dflt). -/
def dgetD (d : List (String × String)) (k : String) (dflt : String) : String :=
  (dget d k).getD dflt

/-- Python k in d. -/
def dmem (d : List (String × String)) (k : String) : Bool :=
  (dget d k).isSome

/-- Python d[k] = v on a dict held as an insertion-ordered association list:
overwrite the value in place if the key is present, otherwise append. -/
def dinsert (d : List (String × String)) (k v : String) : List (String × String) :=
  match d with
  | [] => [(k, v)]
  | e :: rest => if e.1 = k then (e.1, v) :: rest else e :: dinsert rest k v

/-- Python dict(pairs): fold the pairs into a dict, later entries
overwriting earlier ones with the same key. -/
def dictOf (pairs : List (String × String)) : List (String × String) :=
  pairs.foldl (fun d e => dinsert d e.1 e.2) []

/-- Core of the regex in pom_filters.py matching a whole string of the
form a dollar sign, an opening brace, one or more characters other than
a closing brace (the captured name), and a closing brace.  Leading and
trailing whitespace is handled by stripping the input first, which is
what the anchored optional-whitespace groups of the regex do. -/
def parsePropRef (l : List Char) : Option (List Char) :=
  match l with
  | '$' :: '\x7b' :: rest =>
    let name := rest.takeWhile (fun c => !(c == '\x7d'))
    if name.isEmpty then Option.none
    else if rest.dropWhile (fun c => !(c == '\x7d')) = ['\x7d'] then Option.some name
    else Option.none
  | _ => Option.none

/-- The function maven_prop_name of src/filter_plugins/pom_filters.py:
the captured property name, or the empty string when the value is not a
property reference. -/
def maven_prop_name (s : String) : String :=
  match parsePropRef (pyStrip s).data with
  | Option.some name => ⟨name⟩
  | Option.none => ("")

/-- The function maven_is_property_ref of src/filter_plugins/pom_filters.py. -/
def maven_is_property_ref (s : String) : Bool :=
  (parsePropRef (pyStrip s).data).isSome

/-- One match element of a community.general.xml result: absent, a plain
string, or a mapping from tag names to text. -/
inductive MatchItem where
  | none
  | str (s : String)
  | dict (entries : List (String × String))
deriving DecidableEq

/-- The accepted shapes of a whole matches argument: absent, a bare
string, or a list of match elements. -/
inductive Matches where
  | none
  | str (s : String)
  | list (items : List MatchItem)
deriving DecidableEq

/-- First value of a dict literal, as next(iter(d.values())). -/
def headVal (d : List (String × String)) : String :=
  match d with
  | [] => ("")
  | e :: _ => e.2

/-- Contribution of one match element in xml_texts of
src/filter_plugins/pom_filters.py: a non-empty mapping contributes the
first value of the dict rebuilt from its sorted items; anything else is
stringified and stripped (an empty mapping stringifies to a pair of
braces). -/
def xmlTextElem (m : MatchItem) : String :=
  match m with
  | .dict (e :: es) => pyStrip (headVal (dictOf (pySortPairs (e :: es))))
  | .dict [] => ("\x7b\x7d")
  | .str s => pyStrip s
  | .none => ("")

/-- The function xml_texts of src/filter_plugins/pom_filters.py. -/
def xml_texts (ms : Matches) : List String :=
  match ms with
  | .none => []
  | .str s => [xmlTextElem (.str s)]
  | .list items => items.map xmlTextElem

/-- The function maven_normalize_desired of src/filter_plugins/pom_filters.py:
lower-case and trim keys, stringify and trim values, drop absent values and
entries with an empty key or value. -/
def maven_normalize_desired (raw : List (String × Option String)) : List (String × String) :=
  raw.foldl
    (fun out kv =>
      match kv.2 with
      | Option.none => out
      | Option.some v =>
        let key := pyLower (pyStrip kv.1)
        let val := pyStrip v
        if key = ("") ∨ val = ("") then out else dinsert out key val)
    []

/-- An entry is normal when its key is fixed by lower-casing after
stripping, its value is fixed by stripping, and neither is empty: exactly
the shape of every entry emitted by maven_normalize_desired. -/
def normalEntry (e : String × String) : Prop :=
  pyLower (pyStrip e.1) = e.1 ∧ pyStrip e.2 = e.2 ∧ e.1 ≠ ("") ∧ e.2 ≠ ("")

/-- A dependency row as built by maven_dep_rows. -/
structure DepRow where
  groupId : String
  artifactId : String
  version : String
deriving DecidableEq

/-- One proposed change in an enforcement plan. -/
structure PlanItem where
  groupId : String
  artifactId : String
  current : String
  desired : String
deriving DecidableEq

/-- Rendering of the first three elements of a list inside the alignment
diagnostic (Python shows the slice arts[:3] and similar). -/
def previewList (l : List String) : String :=
  ("[") ++ String.intercalate (", ") (l.take 3) ++ ("]")

/-- The diagnostic raised by maven_dep_rows on misaligned lists, carrying
the three lengths and a preview of the head of each list. -/
def alignErrMsg (arts grps vers : List String) : String :=
  ("Dependency lists not aligned: art=") ++ toString arts.length
    ++ (" grp=") ++ toString grps.length
    ++ (" ver=") ++ toString vers.length
    ++ (" | arts[:3]=") ++ previewList arts
    ++ (" grps[:3]=") ++ previewList grps
    ++ (" vers[:3]=") ++ previewList vers

/-- The function maven_dep_rows of src/filter_plugins/pom_filters.py:
flatten the three match lists, fail fast when they are not aligned, and
otherwise pair them index-wise. -/
def maven_dep_rows (artifact_ids group_ids versions : Matches) : Except String (List DepRow) :=
  let arts := xml_texts artifact_ids
  let grps := xml_texts group_ids
  let vers := xml_texts versions
  if arts.length = grps.length ∧ grps.length = vers.length then
    Except.ok ((List.range arts.length).map (fun i =>
      ⟨grps.getD i (""), arts.getD i (""), vers.getD i ("")⟩))
  else Except.error (alignErrMsg arts grps vers)

/-- The function named with a leading underscore lookup_keys in
src/filter_plugins/pom_filters.py: most specific first, the composite
group:artifact key when both parts are non-empty, then the bare artifact
key when non-empty, all lowercased. -/
def lookupKeys (r : DepRow) : List String :=
  let gid := pyLower (pyStrip r.groupId)
  let aid := pyLower (pyStrip r.artifactId)
  (if gid ≠ ("") ∧ aid ≠ ("") then [gid ++ (":") ++ aid] else [])
    ++ (if aid ≠ ("") then [aid] else [])

/-- The probe loop of maven_enforce_plan: try each key in order and on the
first key present in the table return its trimmed value; the empty string
when no key is present. -/
def probeDesired (keys : List String) (desired : List (String × String)) : String :=
  match keys with
  | [] => ("")
  | k :: rest =>
    match dget desired k with
    | Option.some v => pyStrip v
    | Option.none => probeDesired rest desired

/-- The per-row loop of maven_enforce_plan. -/
def planRows (mode : String) (desired : List (String × String)) : List DepRow → List PlanItem
  | [] => []
  | r :: rs =>
    let cur := pyStrip r.version
    if mode = ("literal") ∧ maven_is_property_ref cur = true then planRows mode desired rs
    else
      let desired_ver := probeDesired (lookupKeys r) desired
      if desired_ver = ("") then planRows mode desired rs
      else if cur ≠ desired_ver then
        ⟨r.groupId, r.artifactId, cur, desired_ver⟩ :: planRows mode desired rs
      else planRows mode desired rs

/-- The function maven_enforce_plan of src/filter_plugins/pom_filters.py.
An unknown mode raises; otherwise the rows are scanned in order. -/
def maven_enforce_plan (rows : List DepRow) (desired : List (String × String)) (mode : String) :
    Except String (List PlanItem) :=
  if mode ≠ ("literal") ∧ mode ≠ ("all") then Except.error (("unknown mode: ") ++ mode)
  else Except.ok (planRows mode desired rows)

/-- Emission condition of maven_enforce_plan stated per row: a row yields
a plan item exactly when the mode admits its current version (all mode, or
a current version that is not a property reference), some lookup key
probes to a non-empty trimmed desired value, and that value differs from
the trimmed current version. -/
def planEmit (mode : String) (desired : List (String × String)) (r : DepRow) : Option PlanItem :=
  let cur := pyStrip r.version
  let dv := probeDesired (lookupKeys r) desired
  if (mode = ("all") ∨ maven_is_property_ref cur = false) ∧ dv ≠ ("") ∧ cur ≠ dv then
    Option.some ⟨r.groupId, r.artifactId, cur, dv⟩
  else Option.none

/-- The inner helper of resolve_version in src/filter_plugins/pom_filters.py:
strip the value; an empty value resolves to none; a property reference
resolves through the property table (missing or empty properties give the
empty string) with provenance naming the property; anything else is kept
with the fallback provenance. -/
def resolveOne (props : List (String × String)) (v fallback_source : String) : String × String :=
  let v2 := pyStrip v
  if v2 = ("") then (("") , ("none"))
  else
    let name := maven_prop_name v2
    if name ≠ ("") then (pyStrip (dgetD props name ("")), ("property:") ++ name)
    else (v2, fallback_source)

/-- The function resolve_version of src/filter_plugins/pom_filters.py:
try the explicit value, and when that yields an empty effective value try
the managed value; when both yield empty the result is none. -/
def resolve_version (explicit managed : String) (props : List (String × String)) : String × String :=
  let r1 := resolveOne props explicit ("explicit")
  if r1.1 ≠ ("") then r1
  else
    let r2 := resolveOne props managed ("pluginManagement")
    if r2.1 ≠ ("") then r2
    else (("") , ("none"))

/-- An already-parsed XML element: tag (possibly namespace-qualified),
optional text, and child elements in document order.  Parsing the POM
text is done by the external ElementTree library and is not part of the
embedded code. -/
inductive Element where
  | node (tag : String) (txt : Option String) (children : List Element)

/-- Tag of an element. -/
def Element.tag : Element → String
  | .node t _ _ => t

/-- Raw text of an element, absent when the element has no text. -/
def Element.txt : Element → Option String
  | .node _ t _ => t

/-- Children of an element in document order. -/
def Element.children : Element → List Element
  | .node _ _ c => c

/-- The helper written nsless in the source: the part of the tag after the
first closing brace when one occurs, the whole tag otherwise. -/
def nsless (tag : String) : String :=
  if tag.data.contains ('\x7d') then ⟨(tag.data.dropWhile (fun c => !(c == '\x7d'))).tail⟩
  else tag

/-- The helper written text in the source: stripped text of an optional
element, empty for an absent element or absent text. -/
def textOf (el : Option Element) : String :=
  match el with
  | Option.none => ("")
  | Option.some e =>
    match e.txt with
    | Option.none => ("")
    | Option.some t => pyStrip t

/-- Direct children whose namespace-stripped tag equals the given name. -/
def childrenByLocal (el : Element) (name : String) : List Element :=
  el.children.filter (fun c => nsless c.tag = name)

/-- Stripped text of the first direct child with the given local name. -/
def firstChildText (el : Option Element) (name : String) : String :=
  match el with
  | Option.none => ("")
  | Option.some e =>
    match e.children.find? (fun c => decide (nsless c.tag = name)) with
    | Option.some c => textOf (Option.some c)
    | Option.none => ("")

/-- First-level sections of the given local name under the root. -/
def iterSection (root : Element) (sec : String) : List Element :=
  root.children.filter (fun c => nsless c.tag = sec)

/-- The plugin elements visited by the nested loops of the managed-version
pass: build sections, their pluginManagement children, their plugins
children, their plugin children, in document order. -/
def pmPluginNodes (root : Element) : List Element :=
  (iterSection root ("build")).flatMap (fun b =>
    (childrenByLocal b ("pluginManagement")).flatMap (fun pm =>
      (childrenByLocal pm ("plugins")).flatMap (fun ps =>
        childrenByLocal ps ("plugin"))))

/-- The function with the leading-underscore name managed_plugin_versions
in src/filter_plugins/pom_filters.py: for every pluginManagement plugin
entry with non-empty artifactId and version text, assign version to
artifactId in the table, in document order. -/
def managedPluginVersions (root : Element) : List (String × String) :=
  (pmPluginNodes root).foldl
    (fun out p =>
      let aid := firstChildText (Option.some p) ("artifactId")
      let ver := firstChildText (Option.some p) ("version")
      if aid ≠ ("") ∧ ver ≠ ("") then dinsert out aid ver else out)
    []

/-- The (artifactId, version) pairs contributed to the managed table, in
document order, used to state what the table contains. -/
def pmEntries (root : Element) : List (String × String) :=
  (pmPluginNodes root).filterMap (fun p =>
    let aid := firstChildText (Option.some p) ("artifactId")
    let ver := firstChildText (Option.some p) ("version")
    if aid ≠ ("") ∧ ver ≠ ("") then Option.some (aid, ver) else Option.none)

/-- The plugin elements under build, plugins, plugin, in document order. -/
def iterPlugins (root : Element) : List Element :=
  (iterSection root ("build")).flatMap (fun b =>
    (childrenByLocal b ("plugins")).flatMap (fun ps =>
      childrenByLocal ps ("plugin")))

/-- One record emitted by maven_plugins. -/
structure PluginRec where
  artifactId : String
  version : String
  source : String
deriving DecidableEq

/-- The function maven_plugins of src/filter_plugins/pom_filters.py on an
already-parsed document: resolve each build plugin against its managed
entry and the property table; the source field is none when the effective
version is empty. -/
def maven_plugins (root : Element) (props : List (String × String)) : List PluginRec :=
  let managed := managedPluginVersions root
  (iterPlugins root).map (fun p =>
    let aid := firstChildText (Option.some p) ("artifactId")
    let explicit := firstChildText (Option.some p) ("version")
    let es := resolve_version explicit (dgetD managed aid ("")) props
    ⟨aid, es.1, if es.1 ≠ ("") then es.2 else ("none")⟩)

/-- One record emitted by maven_plugin_deps. -/
structure PluginDepRec where
  plugin : String
  artifactId : String
  version : String
  source : String
deriving DecidableEq

/-- The function maven_plugin_deps of src/filter_plugins/pom_filters.py on
an already-parsed document: for each plugin with a dependencies child,
resolve each dependency with no managed fallback. -/
def maven_plugin_deps (root : Element) (props : List (String × String)) : List PluginDepRec :=
  (iterPlugins root).flatMap (fun p =>
    let plugin_aid := firstChildText (Option.some p) ("artifactId")
    match p.children.find? (fun c => decide (nsless c.tag = ("dependencies"))) with
    | Option.none => []
    | Option.some deps_parent =>
      (childrenByLocal deps_parent ("dependency")).map (fun d =>
        let dep_aid := firstChildText (Option.some d) ("artifactId")
        let dep_ver := firstChildText (Option.some d) ("version")
        let es := resolve_version dep_ver ("") props
        ⟨plugin_aid, dep_aid, es.1, if es.1 ≠ ("") then es.2 else ("none")⟩))

namespace MavenFilters

/-- Python or on two strings: the first when it is non-empty (truthy),
otherwise the second. -/
def pyOrStr (a b : String) : String :=
  if a = ("") then b else a

/-- The function prop_name of src/playbooks/filter_plugins/maven_filters.py:
an empty value short-circuits to the empty string, otherwise the stripped
value is matched against the anchored property-reference regex. -/
def prop_name (value : String) : String :=
  if value = ("") then ("")
  else
    match parsePropRef (pyStrip value).data with
    | Option.some name => ⟨name⟩
    | Option.none => ("")

/-- The inner helper of resolve_version in
src/playbooks/filter_plugins/maven_filters.py. -/
def resolveOne (props : List (String × String)) (v fallback_source : String) : String × String :=
  let v2 := pyStrip (pyOrStr v (""))
  if v2 = ("") then (("") , ("none"))
  else
    let name := prop_name v2
    if name ≠ ("") then (pyStrip (pyOrStr (dgetD props name ("")) ("")), ("property:") ++ name)
    else (v2, fallback_source)

/-- The function resolve_version of
src/playbooks/filter_plugins/maven_filters.py. -/
def resolve_version (explicit managed : String) (props : List (String × String)) : String × String :=
  let r1 := resolveOne props explicit ("explicit")
  if r1.1 ≠ ("") then r1
  else
    let r2 := resolveOne props managed ("pluginManagement")
    if r2.1 ≠ ("") then r2
    else (("") , ("none"))

end MavenFilters

namespace PomReader

/-- The helper first_dict_value of
src/roles/pom_reader/filter_plugins/pom_filters.py: the first value of the
mapping in iteration (insertion) order, the empty string for an empty
mapping. -/
def firstDictValue (d : List (String × String)) : String :=
  match d with
  | [] => ("")
  | e :: _ => e.2

/-- Contribution of one match element in xml_texts of
src/roles/pom_reader/filter_plugins/pom_filters.py: a mapping contributes
its first value in iteration order; no sorting is performed. -/
def xmlTextElem (m : MatchItem) : String :=
  match m with
  | .dict d => pyStrip (firstDictValue d)
  | .str s => pyStrip s
  | .none => ("")

/-- The function xml_texts of
src/roles/pom_reader/filter_plugins/pom_filters.py. -/
def xml_texts (ms : Matches) : List String :=
  match ms with
  | .none => []
  | .str s => [xmlTextElem (.str s)]
  | .list items => items.map xmlTextElem

/-- The function prop_name of
src/roles/pom_reader/filter_plugins/pom_filters.py (textually identical to
the playbooks copy). -/
def prop_name (value : String) : String :=
  if value = ("") then ("")
  else
    match parsePropRef (pyStrip value).data with
    | Option.some name => ⟨name⟩
    | Option.none => ("")

/-- The inner helper of resolve_version in
src/roles/pom_reader/filter_plugins/pom_filters.py. -/
def resolveOne (props : List (String × String)) (v fallback_source : String) : String × String :=
  let v2 := pyStrip (MavenFilters.pyOrStr v (""))
  if v2 = ("") then (("") , ("none"))
  else
    let name := prop_name v2
    if name ≠ ("") then
      (pyStrip (MavenFilters.pyOrStr (dgetD props name ("")) ("")), ("property:") ++ name)
    else (v2, fallback_source)

/-- The function resolve_version of
src/roles/pom_reader/filter_plugins/pom_filters.py. -/
def resolve_version (explicit managed : String) (props : List (String × String)) : String × String :=
  let r1 := resolveOne props explicit ("explicit")
  if r1.1 ≠ ("") then r1
  else
    let r2 := resolveOne props managed ("pluginManagement")
    if r2.1 ≠ ("") then r2
    else (("") , ("none"))

end PomReader

/-- Characters with equal code points are equal. -/
theorem char_toNat_inj (c d : Char) (h : c.toNat = d.toNat) : c = d := by
  apply Char.ext
  exact UInt32.toNat.inj h

/-- The code-point comparison is irreflexive. -/
theorem strLtB_irrefl (l : List Char) : strLtB l l = false := by
  induction l with
  | nil => rfl
  | cons a as ih => simp [strLtB, ih]

/-- The code-point comparison is asymmetric. -/
theorem strLtB_not_both (l m : List Char) (h1 : strLtB l m = true) (h2 : strLtB m l = true) :
    False := by
  induction l generalizing m with
  | nil =>
    cases m with
    | nil => simp [strLtB] at h1
    | cons b bs => simp [strLtB] at h2
  | cons a as ih =>
    cases m with
    | nil => simp [strLtB] at h1
    | cons b bs =>
      by_cases hab : a.toNat < b.toNat
      · have : ¬ b.toNat < a.toNat := by omega
        simp [strLtB, hab, this] at h2
      · by_cases hba : b.toNat < a.toNat
        · simp [strLtB, hab, hba] at h1
        · simp [strLtB, hab, hba] at h1 h2
          exact ih bs h1 h2

/-- The code-point comparison is transitive. -/
theorem strLtB_trans (l m n : List Char) (h1 : strLtB l m = true) (h2 : strLtB m n = true) :
    strLtB l n = true := by
  induction l generalizing m n with
  | nil =>
    cases m with
    | nil => simp [strLtB] at h1
    | cons b bs =>
      cases n with
      | nil => simp [strLtB] at h2
      | cons c cs => simp [strLtB]
  | cons a as ih =>
    cases m with
    | nil => simp [strLtB] at h1
    | cons b bs =>
      cases n with
      | nil => simp [strLtB] at h2
      | cons c cs =>
        by_cases hab : a.toNat < b.toNat <;> by_cases hbc : b.toNat < c.toNat
        · simp [strLtB]
          omega
        · by_cases hcb : c.toNat < b.toNat
          · simp [strLtB, hbc, hcb] at h2
          · have hb : b.toNat = c.toNat := by omega
            simp [strLtB]
            omega
        · by_cases hba : b.toNat < a.toNat
          · simp [strLtB, hab, hba] at h1
          · have hb : a.toNat = b.toNat := by omega
            simp [strLtB]
            omega
        · by_cases hba : b.toNat < a.toNat
          · simp [strLtB, hab, hba] at h1
          · by_cases hcb : c.toNat < b.toNat
            · simp [strLtB, hbc, hcb] at h2
            · have hac : ¬ a.toNat < c.toNat ∧ ¬ c.toNat < a.toNat := by omega
              simp [strLtB, hab, hba] at h1
              simp [strLtB, hbc, hcb] at h2
              simp [strLtB, hac.1, hac.2]
              exact ih bs cs h1 h2

/-- Lists that compare below each other in neither direction are equal. -/
theorem strLtB_conn (l m : List Char) (h1 : strLtB l m = false) (h2 : strLtB m l = false) :
    l = m := by
  induction l generalizing m with
  | nil =>
    cases m with
    | nil => rfl
    | cons b bs => simp [strLtB] at h1
  | cons a as ih =>
    cases m with
    | nil => simp [strLtB] at h2
    | cons b bs =>
      by_cases hab : a.toNat < b.toNat
      · simp [strLtB, hab] at h1
      · by_cases hba : b.toNat < a.toNat
        · simp [strLtB, hba, hab] at h2
        · simp [strLtB, hab, hba] at h1 h2
          have he : a = b := char_toNat_inj a b (by omega)
          rw [he, ih bs h1 h2]

/-- Strings with equal character lists are equal. -/
theorem string_data_inj (s t : String) (h : s.data = t.data) : s = t := by
  cases s
  cases t
  exact congrArg String.mk h

/-- A false comparison in one direction propagates through a second one:
the reflexive closure of the code-point order is transitive. -/
theorem strLtB_le_trans (a b c : List Char) (h1 : strLtB b a = false) (h2 : strLtB c b = false) :
    strLtB c a = false := by
  by_cases hca : strLtB c a = true
  · by_cases hv : strLtB a b = true
    · have := strLtB_trans c a b hca hv
      rw [this] at h2
      exact absurd h2 (by simp)
    · have he := strLtB_conn a b (by simpa using hv) h1
      rw [← he] at h2
      rw [hca] at h2
      exact absurd h2 (by simp)
  · simpa using hca

instance pairR_trans : IsTrans (String × String) pairR where
  trans p q r hpq hqr := by
    simp only [pairR, pairLeB, Bool.or_eq_true, Bool.and_eq_true, Bool.not_eq_true',
      decide_eq_true_eq] at hpq hqr ⊢
    rcases hpq with h1 | ⟨h1, h2⟩ <;> rcases hqr with h3 | ⟨h3, h4⟩
    · exact Or.inl (strLtB_trans _ _ _ h1 h3)
    · exact Or.inl (h3 ▸ h1)
    · exact Or.inl (h1 ▸ h3)
    · exact Or.inr ⟨h1.trans h3, strLtB_le_trans _ _ _ h2 h4⟩

instance pairR_total : IsTotal (String × String) pairR where
  total p q := by
    simp only [pairR, pairLeB, Bool.or_eq_true, Bool.and_eq_true, Bool.not_eq_true',
      decide_eq_true_eq]
    by_cases hpq : strLtB p.1.data q.1.data = true
    · exact Or.inl (Or.inl hpq)
    · by_cases hqp : strLtB q.1.data p.1.data = true
      · exact Or.inr (Or.inl hqp)
      · have he : p.1 = q.1 :=
          string_data_inj _ _ (strLtB_conn _ _ (by simpa using hpq) (by simpa using hqp))
        by_cases hv : strLtB q.2.data p.2.data = true
        · refine Or.inr (Or.inr ⟨he.symm, ?_⟩)
          by_cases hv2 : strLtB p.2.data q.2.data = true
          · exact absurd (strLtB_not_both _ _ hv hv2) (by simp)
          · simpa using hv2
        · exact Or.inl (Or.inr ⟨he, by simpa using hv⟩)

instance pairR_antisymm : IsAntisymm (String × String) pairR where
  antisymm p q hpq hqp := by
    simp only [pairR, pairLeB, Bool.or_eq_true, Bool.and_eq_true, Bool.not_eq_true',
      decide_eq_true_eq] at hpq hqp
    rcases hpq with h1 | ⟨h1, h2⟩ <;> rcases hqp with h3 | ⟨h3, h4⟩
    · exact absurd (strLtB_not_both _ _ h1 h3) (by simp)
    · rw [h3] at h1
      rw [strLtB_irrefl] at h1
      exact absurd h1 (by simp)
    · rw [h1] at h3
      rw [strLtB_irrefl] at h3
      exact absurd h3 (by simp)
    · have hv : p.2 = q.2 := string_data_inj _ _ (strLtB_conn _ _ h4 h2)
      exact Prod.ext h1 hv

/-- Sorting under the total antisymmetric pair order is a function of the
multiset of items only: permuted inputs sort to the same list. -/
theorem pySortPairs_perm_eq (d e : List (String × String)) (h : d.Perm e) :
    pySortPairs d = pySortPairs e := by
  refine @List.eq_of_perm_of_sorted _ pairR pairR_antisymm _ _ ?_ ?_ ?_
  · exact ((List.perm_insertionSort pairR d).trans h).trans
      (List.perm_insertionSort pairR e).symm
  · exact List.sorted_insertionSort pairR d
  · exact List.sorted_insertionSort pairR e

/-- The head surviving a dropWhile does not satisfy the predicate. -/
theorem dropWhile_head_false {p : Char → Bool} (l : List Char) (x : Char)
    (h : (l.dropWhile p).head? = Option.some x) : p x = false := by
  induction l with
  | nil => simp [List.dropWhile] at h
  | cons a as ih =>
    by_cases ha : p a = true
    · rw [List.dropWhile_cons_of_pos ha] at h
      exact ih h
    · rw [List.dropWhile_cons_of_neg ha] at h
      simp at h
      rw [← h]
      simpa using ha

/-- Dropping a prefix that is absent is the identity. -/
theorem dropWhile_eq_self_of_head {p : Char → Bool} (l : List Char)
    (h : ∀ x, l.head? = Option.some x → p x = false) : l.dropWhile p = l := by
  cases l with
  | nil => rfl
  | cons a as => exact List.dropWhile_cons_of_neg (by simp [h a rfl])

/-- A non-empty suffix has the same last element as the whole list. -/
theorem getLast?_of_suffix {l m : List Char} (h : m <:+ l) (hm : m ≠ []) :
    m.getLast? = l.getLast? := by
  obtain ⟨u, hu⟩ := h
  rw [← hu, List.getLast?_append]
  cases hml : m.getLast? with
  | none => exact absurd (List.getLast?_eq_none_iff.mp hml) hm
  | some x => rfl

/-- The first character of a stripped list is not whitespace. -/
theorem pyStripList_head (l : List Char) (x : Char)
    (h : (pyStripList l).head? = Option.some x) : pyWS x = false := by
  unfold pyStripList at h
  rw [List.head?_reverse] at h
  have hne : (((l.dropWhile pyWS).reverse).dropWhile pyWS) ≠ [] := by
    intro he
    rw [he] at h
    simp at h
  rw [getLast?_of_suffix (List.dropWhile_suffix pyWS) hne] at h
  rw [List.getLast?_reverse] at h
  exact dropWhile_head_false _ _ h

/-- The last character of a stripped list is not whitespace. -/
theorem pyStripList_last (l : List Char) (x : Char)
    (h : (pyStripList l).getLast? = Option.some x) : pyWS x = false := by
  unfold pyStripList at h
  rw [List.getLast?_reverse] at h
  exact dropWhile_head_false _ _ h

/-- Stripping a list that is already clean at both ends is the identity. -/
theorem pyStripList_of_clean (l : List Char)
    (h1 : ∀ x, l.head? = Option.some x → pyWS x = false)
    (h2 : ∀ x, l.getLast? = Option.some x → pyWS x = false) : pyStripList l = l := by
  unfold pyStripList
  rw [dropWhile_eq_self_of_head l h1]
  rw [dropWhile_eq_self_of_head l.reverse (by
    intro x hx
    rw [List.head?_reverse] at hx
    exact h2 x hx)]
  exact List.reverse_reverse l

/-- Stripping is idempotent on character lists. -/
theorem pyStripList_idem (l : List Char) : pyStripList (pyStripList l) = pyStripList l :=
  pyStripList_of_clean _ (pyStripList_head l) (pyStripList_last l)

/-- Python strip is idempotent. -/
theorem pyStrip_idem (s : String) : pyStrip (pyStrip s) = pyStrip s :=
  congrArg String.mk (pyStripList_idem s.data)

/-- Lowering a character that is not an ASCII capital letter is the identity. -/
theorem pyLowerChar_of_not (c : Char) (h : ¬ (65 ≤ c.toNat ∧ c.toNat ≤ 90)) :
    pyLowerChar c = c := by
  unfold pyLowerChar
  rw [dif_neg h]

/-- Code point of the lowered form of an ASCII capital letter. -/
theorem pyLowerChar_toNat (c : Char) (h : 65 ≤ c.toNat ∧ c.toNat ≤ 90) :
    (pyLowerChar c).toNat = c.toNat + 32 := by
  unfold pyLowerChar
  rw [dif_pos h]
  rfl

/-- Lower-casing a character is idempotent. -/
theorem pyLowerChar_idem (c : Char) : pyLowerChar (pyLowerChar c) = pyLowerChar c := by
  by_cases h : 65 ≤ c.toNat ∧ c.toNat ≤ 90
  · have h2 := pyLowerChar_toNat c h
    exact pyLowerChar_of_not (pyLowerChar c) (by omega)
  · rw [pyLowerChar_of_not c h, pyLowerChar_of_not c h]

/-- Lower-casing does not change whether a character is whitespace. -/
theorem pyLowerChar_ws (c : Char) : pyWS (pyLowerChar c) = pyWS c := by
  by_cases h : 65 ≤ c.toNat ∧ c.toNat ≤ 90
  · have h2 := pyLowerChar_toNat c h
    simp only [pyWS]
    rw [decide_eq_decide]
    omega
  · rw [pyLowerChar_of_not c h]

/-- Python lower is idempotent. -/
theorem pyLower_idem (s : String) : pyLower (pyLower s) = pyLower s := by
  unfold pyLower
  refine congrArg String.mk ?_
  rw [List.map_map]
  exact List.map_congr_left (fun c _ => pyLowerChar_idem c)

/-- Lower-casing a stripped string leaves it stripped. -/
theorem pyStrip_lower_strip (s : String) :
    pyStrip (pyLower (pyStrip s)) = pyLower (pyStrip s) := by
  unfold pyStrip pyLower
  refine congrArg String.mk ?_
  refine pyStripList_of_clean _ ?_ ?_
  · intro x hx
    rw [List.head?_map] at hx
    cases hy : (pyStripList s.data).head? with
    | none => rw [hy] at hx; simp at hx
    | some y =>
      rw [hy] at hx
      simp at hx
      rw [← hx, pyLowerChar_ws]
      exact pyStripList_head s.data y hy
  · intro x hx
    rw [List.getLast?_map] at hx
    cases hy : (pyStripList s.data).getLast? with
    | none => rw [hy] at hx; simp at hx
    | some y =>
      rw [hy] at hx
      simp at hx
      rw [← hx, pyLowerChar_ws]
      exact pyStripList_last s.data y hy

/-- Lookup in a one-step-extended association list. -/
theorem dget_cons (e : String × String) (d : List (String × String)) (k : String) :
    dget (e :: d) k = if e.1 = k then Option.some e.2 else dget d k := by
  by_cases h : e.1 = k
  · simp [dget, List.find?_cons_of_pos, h]
  · simp [dget, List.find?_cons_of_neg, h]

/-- Lookup after an assignment: the assigned key reads the new value and
every other key is unchanged. -/
theorem dget_dinsert (d : List (String × String)) (k v k2 : String) :
    dget (dinsert d k v) k2 = if k2 = k then Option.some v else dget d k2 := by
  induction d with
  | nil =>
    by_cases h : k2 = k
    · simp [dinsert, dget_cons, h]
    · have h2 : ¬ k = k2 := fun he => h he.symm
      simp [dinsert, dget_cons, h, h2, dget]
  | cons e rest ih =>
    by_cases he : e.1 = k
    · simp only [dinsert, if_pos he]
      by_cases h2 : k2 = k
      · rw [dget_cons, if_pos (he.trans h2.symm), if_pos h2]
      · have hne : ¬ ((e.1, v).1 = k2) := fun hc => h2 (hc.symm.trans he)
        rw [dget_cons, if_neg hne, if_neg h2, dget_cons, if_neg (fun hc => h2 (hc.symm.trans he))]
    · simp only [dinsert, if_neg he]
      by_cases h2 : e.1 = k2
      · rw [dget_cons, if_pos h2, if_neg (fun hc => he ((h2.trans hc).symm).symm), dget_cons,
          if_pos h2]
      · rw [dget_cons, if_neg h2, ih, dget_cons, if_neg h2]

/-- Assigning an absent key appends the entry at the end. -/
theorem dinsert_append (d : List (String × String)) (k v : String)
    (h : dget d k = Option.none) : dinsert d k v = d ++ [(k, v)] := by
  induction d with
  | nil => rfl
  | cons e rest ih =>
    rw [dget_cons] at h
    by_cases he : e.1 = k
    · rw [if_pos he] at h
      exact absurd h (by simp)
    · rw [if_neg he] at h
      simp only [dinsert, if_neg he, List.cons_append]
      rw [ih h]

/-- Entries of an association list after an assignment come from the old
list or are the assigned pair. -/
theorem mem_dinsert (d : List (String × String)) (k v : String) (e : String × String)
    (h : e ∈ dinsert d k v) : e ∈ d ∨ (e.1 = k ∧ e.2 = v) := by
  induction d with
  | nil =>
    simp [dinsert] at h
    exact Or.inr (by simp [h])
  | cons f rest ih =>
    by_cases hf : f.1 = k
    · simp only [dinsert, if_pos hf] at h
      rcases List.mem_cons.mp h with h1 | h1
      · exact Or.inr (by simp [h1, hf])
      · exact Or.inl (List.mem_cons_of_mem f h1)
    · simp only [dinsert, if_neg hf] at h
      rcases List.mem_cons.mp h with h1 | h1
      · exact Or.inl (h1 ▸ List.mem_cons_self f rest)
      · rcases ih h1 with h2 | h2
        · exact Or.inl (List.mem_cons_of_mem f h2)
        · exact Or.inr h2

/-- Keys after an assignment come from the old keys or are the assigned key. -/
theorem keys_mem_dinsert (d : List (String × String)) (k v : String) (a : String)
    (h : a ∈ (dinsert d k v).map Prod.fst) : a ∈ d.map Prod.fst ∨ a = k := by
  rcases List.mem_map.mp h with ⟨e, he, hea⟩
  rcases mem_dinsert d k v e he with h1 | h1
  · exact Or.inl (List.mem_map.mpr ⟨e, h1, hea⟩)
  · exact Or.inr (hea ▸ h1.1)

/-- Assignments preserve distinctness of keys. -/
theorem nodup_keys_dinsert (d : List (String × String)) (k v : String)
    (h : (d.map Prod.fst).Nodup) : ((dinsert d k v).map Prod.fst).Nodup := by
  induction d with
  | nil => simp [dinsert]
  | cons e rest ih =>
    rw [List.map_cons, List.nodup_cons] at h
    by_cases he : e.1 = k
    · simp only [dinsert, if_pos he, List.map_cons, List.nodup_cons]
      exact h
    · simp only [dinsert, if_neg he, List.map_cons, List.nodup_cons]
      refine ⟨?_, ih h.2⟩
      intro hc
      rcases keys_mem_dinsert rest k v e.1 hc with h1 | h1
      · exact h.1 h1
      · exact he h1

/-- Splitting a list at the first failure of the predicate. -/
theorem takeWhile_all_append (p : Char → Bool) (xs : List Char) (y : Char)
    (hx : ∀ c ∈ xs, p c = true) (hy : p y = false) :
    (xs ++ [y]).takeWhile p = xs ∧ (xs ++ [y]).dropWhile p = [y] := by
  induction xs with
  | nil => simp [List.takeWhile, List.dropWhile, hy]
  | cons a as ih =>
    have ha : p a = true := hx a (List.mem_cons_self a as)
    have ih2 := ih (fun c hc => hx c (List.mem_cons_of_mem a hc))
    simp [List.takeWhile, List.dropWhile, ha, ih2.1, ih2.2]

/-- Soundness of the property-reference parser: a successful parse
reconstructs the input as the dollar-brace frame around a non-empty
captured name free of closing braces. -/
theorem parse_sound (l : List Char) (nm : List Char) (h : parsePropRef l = Option.some nm) :
    l = '$' :: '\x7b' :: (nm ++ ['\x7d']) ∧ nm ≠ [] ∧ ∀ c ∈ nm, (c == '\x7d') = false := by
  unfold parsePropRef at h
  split at h
  case h_2 => exact absurd h (by simp)
  case h_1 rest =>
    by_cases h1 : (rest.takeWhile (fun c => !(c == '\x7d'))).isEmpty
    · rw [if_pos h1] at h
      exact absurd h (by simp)
    · rw [if_neg h1] at h
      by_cases h2 : rest.dropWhile (fun c => !(c == '\x7d')) = ['\x7d']
      · rw [if_pos h2] at h
        simp only [Option.some.injEq] at h
        refine ⟨?_, ?_, ?_⟩
        · have hr : rest = nm ++ ['\x7d'] := by
            rw [← h, ← h2, List.takeWhile_append_dropWhile]
          rw [hr]
        · intro hc
          rw [← h] at hc
          rw [hc] at h1
          exact h1 rfl
        · intro c hc
          rw [← h] at hc
          have := List.mem_takeWhile_imp hc
          simpa using this
      · rw [if_neg h2] at h
        exact absurd h (by simp)

/-- Completeness of the property-reference parser. -/
theorem parse_complete (nm : List Char) (h1 : nm ≠ [])
    (h2 : ∀ c ∈ nm, (c == '\x7d') = false) :
    parsePropRef ('$' :: '\x7b' :: (nm ++ ['\x7d'])) = Option.some nm := by
  have hsplit := takeWhile_all_append (fun c => !(c == '\x7d')) nm '\x7d'
    (fun c hc => by simp [h2 c hc]) (by simp)
  unfold parsePropRef
  simp only [hsplit.1, hsplit.2]
  rw [if_neg (by simpa using h1)]
  simp

/-- Unfolding equation for resolveOne with the lets expanded. -/
theorem resolveOne_eq (props : List (String × String)) (v f : String) :
    resolveOne props v f =
      (if pyStrip v = ("") then (("") , ("none"))
       else if maven_prop_name (pyStrip v) ≠ ("") then
         (pyStrip (dgetD props (maven_prop_name (pyStrip v)) ("")),
          ("property:") ++ maven_prop_name (pyStrip v))
       else (pyStrip v, f)) := rfl

/-- Unfolding equation for resolve_version with the lets expanded. -/
theorem resolve_version_eq (e m : String) (props : List (String × String)) :
    resolve_version e m props =
      (if (resolveOne props e ("explicit")).1 ≠ ("") then resolveOne props e ("explicit")
       else if (resolveOne props m ("pluginManagement")).1 ≠ ("") then
         resolveOne props m ("pluginManagement")
       else (("") , ("none"))) := rfl

/-- Stripping first does not change the captured property name, because
the matcher itself strips. -/
theorem prop_name_strip (s : String) : maven_prop_name (pyStrip s) = maven_prop_name s := by
  unfold maven_prop_name
  rw [pyStrip_idem]

/-- Stripping first does not change property-reference recognition. -/
theorem is_ref_strip (s : String) :
    maven_is_property_ref (pyStrip s) = maven_is_property_ref s := by
  unfold maven_is_property_ref
  rw [pyStrip_idem]

/-- A non-reference has an empty captured name. -/
theorem prop_name_of_not_ref (s : String) (h : maven_is_property_ref s = false) :
    maven_prop_name s = ("") := by
  unfold maven_is_property_ref at h
  unfold maven_prop_name
  have h2 : parsePropRef (pyStrip s).data = Option.none :=
    Option.not_isSome_iff_eq_none.mp (by simp [h])
  rw [h2]

/-- A recognized reference parses to exactly the captured name, and that
name is non-empty. -/
theorem parse_of_is_ref (s : String) (h : maven_is_property_ref s = true) :
    parsePropRef (pyStrip s).data = Option.some (maven_prop_name s).data
      ∧ maven_prop_name s ≠ ("") := by
  unfold maven_is_property_ref at h
  rcases Option.isSome_iff_exists.mp h with ⟨nm, hnm⟩
  have hne : nm ≠ [] := (parse_sound _ nm hnm).2.1
  unfold maven_prop_name
  rw [hnm]
  exact ⟨rfl, fun he => hne (congrArg String.data he)⟩

/-- A property provenance tag is never the none tag. -/
theorem property_src_ne (nm : String) : ("property:") ++ nm ≠ ("none") := by
  intro h
  have h2 : ("property:").length + nm.length = ("none").length := by
    rw [← String.length_append, h]
  have h9 : ("property:").length = 9 := rfl
  have h4 : ("none").length = 4 := rfl
  omega

/-- A resolution step with a non-empty effective value never reports the
none provenance, for any fallback tag other than none itself. -/
theorem resolveOne_fst_src (props : List (String × String)) (v f : String)
    (hf : f ≠ ("none")) (h : (resolveOne props v f).1 ≠ ("")) :
    (resolveOne props v f).2 ≠ ("none") := by
  rw [resolveOne_eq] at h ⊢
  by_cases h1 : pyStrip v = ("")
  · rw [if_pos h1] at h
    exact absurd rfl h
  · rw [if_neg h1] at h ⊢
    by_cases h2 : maven_prop_name (pyStrip v) ≠ ("")
    · rw [if_pos h2]
      exact property_src_ne _
    · rw [if_neg h2]
      exact hf

/-- The resolve_version invariant: the provenance is none exactly when the
effective value is empty. -/
theorem resolve_version_none_iff (e m : String) (props : List (String × String)) :
    ((resolve_version e m props).2 = ("none")) ↔ ((resolve_version e m props).1 = ("")) := by
  rw [resolve_version_eq]
  by_cases h1 : (resolveOne props e ("explicit")).1 ≠ ("")
  · rw [if_pos h1]
    constructor
    · intro hs
      exact absurd hs (resolveOne_fst_src props e ("explicit") (by decide) h1)
    · intro hv
      exact absurd hv h1
  · rw [if_neg h1]
    by_cases h2 : (resolveOne props m ("pluginManagement")).1 ≠ ("")
    · rw [if_pos h2]
      constructor
      · intro hs
        exact absurd hs (resolveOne_fst_src props m ("pluginManagement") (by decide) h2)
      · intro hv
        exact absurd hv h2
    · rw [if_neg h2]
      simp

/-- Every record of maven_plugins satisfies the none-iff-empty invariant. -/
theorem maven_plugins_none_iff (root : Element) (props : List (String × String))
    (rec : PluginRec) (hrec : rec ∈ maven_plugins root props) :
    (rec.source = ("none")) ↔ (rec.version = ("")) := by
  unfold maven_plugins at hrec
  rcases List.mem_map.mp hrec with ⟨p, hp, hpe⟩
  rw [← hpe]
  by_cases he : (resolve_version (firstChildText (Option.some p) ("version"))
      (dgetD (managedPluginVersions root) (firstChildText (Option.some p) ("artifactId")) (""))
      props).1 = ("")
  · show (if _ ≠ ("") then _ else ("none")) = ("none") ↔ _
    rw [if_neg (fun hc => hc he)]
    simpa using he
  · show (if _ ≠ ("") then _ else ("none")) = ("none") ↔ _
    rw [if_pos he]
    constructor
    · intro hs
      exact absurd ((resolve_version_none_iff _ _ _).mp hs) he
    · intro hv
      exact absurd hv he

/-- Every record of maven_plugin_deps satisfies the none-iff-empty invariant. -/
theorem maven_plugin_deps_none_iff (root : Element) (props : List (String × String))
    (rec : PluginDepRec) (hrec : rec ∈ maven_plugin_deps root props) :
    (rec.source = ("none")) ↔ (rec.version = ("")) := by
  unfold maven_plugin_deps at hrec
  rcases List.mem_flatMap.mp hrec with ⟨p, hp, hin⟩
  cases hfind : p.children.find? (fun c => decide (nsless c.tag = ("dependencies"))) with
  | none =>
    rw [hfind] at hin
    simp at hin
  | some deps_parent =>
    rw [hfind] at hin
    rcases List.mem_map.mp hin with ⟨d, hd, hde⟩
    rw [← hde]
    by_cases he : (resolve_version (firstChildText (Option.some d) ("version")) ("") props).1 = ("")
    · show (if _ ≠ ("") then _ else ("none")) = ("none") ↔ _
      rw [if_neg (fun hc => hc he)]
      simpa using he
    · show (if _ ≠ ("") then _ else ("none")) = ("none") ↔ _
      rw [if_pos he]
      constructor
      · intro hs
        exact absurd ((resolve_version_none_iff _ _ _).mp hs) he
      · intro hv
        exact absurd hv he

/-- Character-list form of the dollar-brace frame around a name. -/
theorem wrap_data (name : String) :
    ((("$\x7b") ++ name ++ ("\x7d")).data) = '$' :: '\x7b' :: (name.data ++ ['\x7d']) := by
  rw [String.data_append, String.data_append]
  show ['$', '\x7b'] ++ name.data ++ ['\x7d'] = _
  simp

/-- Shape characterization of property-reference recognition: the whole
trimmed string is a dollar-brace frame around one or more characters that
are not closing braces. -/
theorem is_ref_iff_shape (s : String) :
    maven_is_property_ref s = true ↔
      ∃ name : String, name ≠ ("") ∧ (∀ c ∈ name.data, (c == '\x7d') = false) ∧
        pyStrip s = ("$\x7b") ++ name ++ ("\x7d") := by
  constructor
  · intro h
    rcases Option.isSome_iff_exists.mp h with ⟨nm, hnm⟩
    rcases parse_sound _ nm hnm with ⟨hshape, hne, hmem⟩
    refine ⟨⟨nm⟩, fun he => hne (congrArg String.data he), hmem, ?_⟩
    refine string_data_inj _ _ ?_
    rw [hshape, wrap_data]
  · rintro ⟨name, hne, hmem, hs⟩
    unfold maven_is_property_ref
    have hdata : (pyStrip s).data = '$' :: '\x7b' :: (name.data ++ ['\x7d']) := by
      rw [hs, wrap_data]
    rw [hdata, parse_complete name.data (fun he => hne (string_data_inj _ _ he)) hmem]
    rfl

/-- Resolution of an explicit property reference, as the code implements
it: a non-empty property value wins regardless of the managed value; an
empty or missing property value makes resolution continue exactly as if
the explicit value were absent. -/
theorem resolve_explicit_ref (explicit managed : String) (props : List (String × String))
    (h : maven_is_property_ref explicit = true) :
    (pyStrip (dgetD props (maven_prop_name explicit) ("")) ≠ ("") →
      resolve_version explicit managed props
        = (pyStrip (dgetD props (maven_prop_name explicit) ("")),
           ("property:") ++ maven_prop_name explicit)) ∧
    (pyStrip (dgetD props (maven_prop_name explicit) ("")) = ("") →
      resolve_version explicit managed props = resolve_version ("") managed props) := by
  obtain ⟨hparse, hnne⟩ := parse_of_is_ref explicit h
  have hse : pyStrip explicit ≠ ("") := by
    intro he
    rw [he] at hparse
    simp [parsePropRef] at hparse
  have hpn : maven_prop_name (pyStrip explicit) = maven_prop_name explicit :=
    prop_name_strip explicit
  have hr1 : resolveOne props explicit ("explicit")
      = (pyStrip (dgetD props (maven_prop_name explicit) ("")),
         ("property:") ++ maven_prop_name explicit) := by
    rw [resolveOne_eq, if_neg hse, hpn, if_pos hnne]
  have hempty : resolveOne props ("") ("explicit") = (("") , ("none")) := rfl
  constructor
  · intro hpv
    rw [resolve_version_eq, hr1, if_pos hpv]
  · intro hpv
    rw [resolve_version_eq, hr1, if_neg (fun hc => hc hpv)]
    have hc0 : ¬ (((("") , ("none")) : String × String).1 ≠ ("")) := by simp
    have hrhs : resolve_version ("") managed props
        = (if (resolveOne props managed ("pluginManagement")).1 ≠ ("") then
             resolveOne props managed ("pluginManagement")
           else (("") , ("none"))) := by
      rw [resolve_version_eq ("") managed props, hempty, if_neg hc0]
    rw [hrhs]

/-- Unfolding equation for planEmit with the lets expanded. -/
theorem planEmit_eq (mode : String) (desired : List (String × String)) (r : DepRow) :
    planEmit mode desired r =
      (if (mode = ("all") ∨ maven_is_property_ref (pyStrip r.version) = false)
           ∧ probeDesired (lookupKeys r) desired ≠ ("")
           ∧ pyStrip r.version ≠ probeDesired (lookupKeys r) desired then
         Option.some ⟨r.groupId, r.artifactId, pyStrip r.version,
           probeDesired (lookupKeys r) desired⟩
       else Option.none) := rfl

/-- Unfolding equation for one step of the plan loop. -/
theorem planRows_cons (mode : String) (desired : List (String × String)) (r : DepRow)
    (rs : List DepRow) :
    planRows mode desired (r :: rs) =
      (if mode = ("literal") ∧ maven_is_property_ref (pyStrip r.version) = true then
         planRows mode desired rs
       else if probeDesired (lookupKeys r) desired = ("") then planRows mode desired rs
       else if pyStrip r.version ≠ probeDesired (lookupKeys r) desired then
         ⟨r.groupId, r.artifactId, pyStrip r.version,
           probeDesired (lookupKeys r) desired⟩ :: planRows mode desired rs
       else planRows mode desired rs) := rfl

/-- The plan loop is the order-preserving filter of the per-row emission
condition, for either valid mode. -/
theorem planRows_filterMap (mode : String) (desired : List (String × String))
    (rows : List DepRow) (h : mode = ("literal") ∨ mode = ("all")) :
    planRows mode desired rows = rows.filterMap (planEmit mode desired) := by
  induction rows with
  | nil => rfl
  | cons r rs ih =>
    rw [List.filterMap_cons, planRows_cons, planEmit_eq]
    rcases h with hm | hm
    · subst hm
      by_cases href : maven_is_property_ref (pyStrip r.version) = true
      · have hg : ¬ (((("literal") : String) = ("all")
              ∨ maven_is_property_ref (pyStrip r.version) = false)
            ∧ probeDesired (lookupKeys r) desired ≠ ("")
            ∧ pyStrip r.version ≠ probeDesired (lookupKeys r) desired) := by
          rintro ⟨h1 | h1, h2⟩
          · exact absurd h1 (by decide)
          · rw [href] at h1
            exact absurd h1 (by simp)
        rw [if_pos ⟨rfl, href⟩, if_neg hg]
        simpa using ih
      · have href2 : maven_is_property_ref (pyStrip r.version) = false := by
          simpa using href
        rw [if_neg (fun hc => href hc.2)]
        by_cases hdv : probeDesired (lookupKeys r) desired = ("")
        · rw [if_pos hdv, if_neg (fun hc => hc.2.1 hdv)]
          simpa using ih
        · rw [if_neg hdv]
          by_cases hcur : pyStrip r.version ≠ probeDesired (lookupKeys r) desired
          · rw [if_pos hcur, if_pos ⟨Or.inr href2, hdv, hcur⟩]
            simp only [List.filterMap_cons]
            rw [ih]
          · rw [if_neg hcur, if_neg (fun hc => hcur hc.2.2)]
            simpa using ih
    · subst hm
      rw [if_neg (fun hc => absurd hc.1 (by decide))]
      by_cases hdv : probeDesired (lookupKeys r) desired = ("")
      · rw [if_pos hdv, if_neg (fun hc => hc.2.1 hdv)]
        simpa using ih
      · rw [if_neg hdv]
        by_cases hcur : pyStrip r.version ≠ probeDesired (lookupKeys r) desired
        · rw [if_pos hcur, if_pos ⟨Or.inl rfl, hdv, hcur⟩]
          simp only [List.filterMap_cons]
          rw [ih]
        · rw [if_neg hcur, if_neg (fun hc => hcur hc.2.2)]
          simpa using ih

/-- Unfolding equation for the ordered lookup keys. -/
theorem lookupKeys_eqn (r : DepRow) :
    lookupKeys r =
      (if pyLower (pyStrip r.groupId) ≠ ("") ∧ pyLower (pyStrip r.artifactId) ≠ ("") then
         [pyLower (pyStrip r.groupId) ++ (":") ++ pyLower (pyStrip r.artifactId)]
       else [])
      ++ (if pyLower (pyStrip r.artifactId) ≠ ("") then [pyLower (pyStrip r.artifactId)]
          else []) := rfl

/-- With both identifiers present the probe list is the composite key then
the bare artifact key. -/
theorem lookupKeys_both (r : DepRow) (h1 : pyLower (pyStrip r.groupId) ≠ (""))
    (h2 : pyLower (pyStrip r.artifactId) ≠ ("")) :
    lookupKeys r = [pyLower (pyStrip r.groupId) ++ (":") ++ pyLower (pyStrip r.artifactId),
      pyLower (pyStrip r.artifactId)] := by
  rw [lookupKeys_eqn, if_pos ⟨h1, h2⟩, if_pos h2]
  rfl

/-- Lookup in the managed table built by folding assignments equals the
last matching contributed entry, with the accumulator as fallback. -/
theorem managed_fold (ps : List Element) (acc : List (String × String)) (k : String) :
    dget (ps.foldl (fun out p =>
        let aid := firstChildText (Option.some p) ("artifactId")
        let ver := firstChildText (Option.some p) ("version")
        if aid ≠ ("") ∧ ver ≠ ("") then dinsert out aid ver else out) acc) k
      = (((ps.filterMap (fun p =>
            let aid := firstChildText (Option.some p) ("artifactId")
            let ver := firstChildText (Option.some p) ("version")
            if aid ≠ ("") ∧ ver ≠ ("") then Option.some (aid, ver) else Option.none)).filter
              (fun e => decide (e.1 = k))).getLast?.map (fun e => e.2)).or (dget acc k) := by
  induction ps generalizing acc with
  | nil => simp
  | cons p ps ih =>
    rw [List.foldl_cons, List.filterMap_cons]
    dsimp only
    by_cases hg : firstChildText (Option.some p) ("artifactId") ≠ ("")
        ∧ firstChildText (Option.some p) ("version") ≠ ("")
    · rw [if_pos hg, if_pos hg, ih]
      by_cases hk : firstChildText (Option.some p) ("artifactId") = k
      · rw [List.filter_cons_of_pos (by simp [hk])]
        rw [dget_dinsert, if_pos hk.symm]
        cases hrest : ((ps.filterMap (fun p =>
            let aid := firstChildText (Option.some p) ("artifactId")
            let ver := firstChildText (Option.some p) ("version")
            if aid ≠ ("") ∧ ver ≠ ("") then Option.some (aid, ver) else Option.none)).filter
              (fun e => decide (e.1 = k))).getLast? with
        | none => simp [List.getLast?_cons, hrest, Option.or]
        | some e2 => simp [List.getLast?_cons, hrest, Option.or]
      · rw [List.filter_cons_of_neg (by simp [hk])]
        rw [dget_dinsert, if_neg (fun hc => hk hc.symm)]
    · rw [if_neg hg, if_neg hg]
      exact ih acc

/-- The entry written by the normalizer is normal. -/
theorem normal_written (k0 v0 : String) (hk : pyLower (pyStrip k0) ≠ (""))
    (hv : pyStrip v0 ≠ ("")) : normalEntry (pyLower (pyStrip k0), pyStrip v0) := by
  refine ⟨?_, ?_, hk, hv⟩
  · show pyLower (pyStrip (pyLower (pyStrip k0))) = pyLower (pyStrip k0)
    rw [pyStrip_lower_strip, pyLower_idem]
  · exact pyStrip_idem v0

/-- Every entry accumulated by the normalizer loop is normal. -/
theorem mnd_fold_mem (raw : List (String × Option String)) (acc : List (String × String))
    (hacc : ∀ e ∈ acc, normalEntry e) :
    ∀ e ∈ raw.foldl (fun out kv =>
        match kv.2 with
        | Option.none => out
        | Option.some v =>
          let key := pyLower (pyStrip kv.1)
          let val := pyStrip v
          if key = ("") ∨ val = ("") then out else dinsert out key val) acc,
      normalEntry e := by
  induction raw generalizing acc with
  | nil => exact hacc
  | cons kv rest ih =>
    rw [List.foldl_cons]
    cases hkv : kv.2 with
    | none =>
      exact ih acc hacc
    | some v =>
      dsimp only
      by_cases hg : pyLower (pyStrip kv.1) = ("") ∨ pyStrip v = ("")
      · rw [if_pos hg]
        exact ih acc hacc
      · rw [if_neg hg]
        refine ih _ ?_
        intro e he
        rcases mem_dinsert _ _ _ e he with h1 | h1
        · exact hacc e h1
        · have hn := normal_written kv.1 v (fun hc => hg (Or.inl hc)) (fun hc => hg (Or.inr hc))
          have he2 : e = (pyLower (pyStrip kv.1), pyStrip v) := Prod.ext h1.1 h1.2
          rw [he2]
          exact hn

/-- The keys accumulated by the normalizer loop stay distinct. -/
theorem mnd_fold_nodup (raw : List (String × Option String)) (acc : List (String × String))
    (hacc : (acc.map Prod.fst).Nodup) :
    ((raw.foldl (fun out kv =>
        match kv.2 with
        | Option.none => out
        | Option.some v =>
          let key := pyLower (pyStrip kv.1)
          let val := pyStrip v
          if key = ("") ∨ val = ("") then out else dinsert out key val) acc).map Prod.fst).Nodup := by
  induction raw generalizing acc with
  | nil => exact hacc
  | cons kv rest ih =>
    rw [List.foldl_cons]
    cases hkv : kv.2 with
    | none =>
      exact ih acc hacc
    | some v =>
      dsimp only
      by_cases hg : pyLower (pyStrip kv.1) = ("") ∨ pyStrip v = ("")
      · rw [if_pos hg]
        exact ih acc hacc
      · rw [if_neg hg]
        exact ih _ (nodup_keys_dinsert acc _ _ hacc)

/-- Lookup distributes over list concatenation, first list first. -/
theorem dget_append (d1 d2 : List (String × String)) (k : String) :
    dget (d1 ++ d2) k = (dget d1 k).or (dget d2 k) := by
  unfold dget
  rw [List.find?_append]
  cases List.find? (fun e => decide (e.1 = k)) d1 with
  | none => simp [Option.or]
  | some e => simp [Option.or]

/-- Feeding already-normal entries with distinct keys not present in the
accumulator back through the normalizer loop appends them unchanged. -/
theorem mnd_fold_normal_append (l : List (String × String)) (acc : List (String × String))
    (hn : ∀ e ∈ l, normalEntry e) (hd : (l.map Prod.fst).Nodup)
    (ha : ∀ e ∈ l, dget acc e.1 = Option.none) :
    (l.map (fun e => (e.1, Option.some e.2))).foldl (fun out kv =>
        match kv.2 with
        | Option.none => out
        | Option.some v =>
          let key := pyLower (pyStrip kv.1)
          let val := pyStrip v
          if key = ("") ∨ val = ("") then out else dinsert out key val) acc
      = acc ++ l := by
  induction l generalizing acc with
  | nil => simp
  | cons e rest ih =>
    rw [List.map_cons, List.foldl_cons]
    dsimp only
    have hne := hn e (List.mem_cons_self e rest)
    rw [hne.1, hne.2.1]
    rw [if_neg (by
      rintro (hc | hc)
      · exact hne.2.2.1 hc
      · exact hne.2.2.2 hc)]
    rw [dinsert_append acc e.1 e.2 (ha e (List.mem_cons_self e rest))]
    rw [List.map_cons, List.nodup_cons] at hd
    have step := ih (acc ++ [(e.1, e.2)])
      (fun x hx => hn x (List.mem_cons_of_mem e hx)) hd.2
      (fun x hx => by
        rw [dget_append]
        rw [ha x (List.mem_cons_of_mem e hx)]
        rw [dget_cons]
        rw [if_neg (fun hc => hd.1 (by
          rw [hc]
          exact List.mem_map.mpr ⟨x, hx, rfl⟩))]
        rfl)
    rw [step]
    simp

/-- Unfolding equation for the playbooks copy of the inner resolver. -/
theorem mf_resolveOne_eqn (props : List (String × String)) (v f : String) :
    MavenFilters.resolveOne props v f =
      (if pyStrip (MavenFilters.pyOrStr v ("")) = ("") then (("") , ("none"))
       else if MavenFilters.prop_name (pyStrip (MavenFilters.pyOrStr v (""))) ≠ ("") then
         (pyStrip (MavenFilters.pyOrStr
            (dgetD props (MavenFilters.prop_name (pyStrip (MavenFilters.pyOrStr v ("")))) ("")) ("")),
          ("property:") ++ MavenFilters.prop_name (pyStrip (MavenFilters.pyOrStr v (""))))
       else (pyStrip (MavenFilters.pyOrStr v ("")), f)) := rfl

/-- Python or with an empty right operand is the identity on strings. -/
theorem pyOrStr_empty (a : String) : MavenFilters.pyOrStr a ("") = a := by
  unfold MavenFilters.pyOrStr
  by_cases h : a = ("")
  · rw [if_pos h, h]
  · rw [if_neg h]

/-- The two regex-wrapping helpers extract the same property name. -/
theorem prop_name_copies_eq (s : String) : MavenFilters.prop_name s = maven_prop_name s := by
  by_cases h : s = ("")
  · rw [h]
    rfl
  · unfold MavenFilters.prop_name maven_prop_name
    rw [if_neg h]

/-- The playbooks inner resolver agrees with the main module inner resolver. -/
theorem resolveOne_copies_eq (props : List (String × String)) (v f : String) :
    MavenFilters.resolveOne props v f = resolveOne props v f := by
  rw [mf_resolveOne_eqn, resolveOne_eq, pyOrStr_empty v, prop_name_copies_eq,
    pyOrStr_empty (dgetD props (maven_prop_name (pyStrip v)) (""))]

/-- The pom_reader inner resolver is textually the playbooks one. -/
theorem pr_resolveOne_eq (props : List (String × String)) (v f : String) :
    PomReader.resolveOne props v f = MavenFilters.resolveOne props v f := rfl

/-- Unfolding equation for the playbooks copy of resolve_version. -/
theorem mf_resolve_version_eqn (e m : String) (props : List (String × String)) :
    MavenFilters.resolve_version e m props =
      (if (MavenFilters.resolveOne props e ("explicit")).1 ≠ ("") then
         MavenFilters.resolveOne props e ("explicit")
       else if (MavenFilters.resolveOne props m ("pluginManagement")).1 ≠ ("") then
         MavenFilters.resolveOne props m ("pluginManagement")
       else (("") , ("none"))) := rfl

/-- Containment of the three lengths and the three previews in the
alignment diagnostic. -/
theorem alignErrMsg_contains (arts grps vers : List String) :
    ∀ s ∈ [toString arts.length, toString grps.length, toString vers.length,
           previewList arts, previewList grps, previewList vers],
      ∃ pre post : String, alignErrMsg arts grps vers = pre ++ s ++ post := by
  intro s hs
  simp only [List.mem_cons, List.not_mem_nil, or_false] at hs
  rcases hs with rfl | rfl | rfl | rfl | rfl | rfl
  · exact ⟨("Dependency lists not aligned: art="),
      (" grp=") ++ toString grps.length ++ (" ver=") ++ toString vers.length
        ++ (" | arts[:3]=") ++ previewList arts ++ (" grps[:3]=") ++ previewList grps
        ++ (" vers[:3]=") ++ previewList vers,
      by simp [alignErrMsg, String.append_assoc]⟩
  · exact ⟨("Dependency lists not aligned: art=") ++ toString arts.length ++ (" grp="),
      (" ver=") ++ toString vers.length
        ++ (" | arts[:3]=") ++ previewList arts ++ (" grps[:3]=") ++ previewList grps
        ++ (" vers[:3]=") ++ previewList vers,
      by simp [alignErrMsg, String.append_assoc]⟩
  · exact ⟨("Dependency lists not aligned: art=") ++ toString arts.length ++ (" grp=")
        ++ toString grps.length ++ (" ver="),
      (" | arts[:3]=") ++ previewList arts ++ (" grps[:3]=") ++ previewList grps
        ++ (" vers[:3]=") ++ previewList vers,
      by simp [alignErrMsg, String.append_assoc]⟩
  · exact ⟨("Dependency lists not aligned: art=") ++ toString arts.length ++ (" grp=")
        ++ toString grps.length ++ (" ver=") ++ toString vers.length ++ (" | arts[:3]="),
      (" grps[:3]=") ++ previewList grps ++ (" vers[:3]=") ++ previewList vers,
      by simp [alignErrMsg, String.append_assoc]⟩
  · exact ⟨("Dependency lists not aligned: art=") ++ toString arts.length ++ (" grp=")
        ++ toString grps.length ++ (" ver=") ++ toString vers.length ++ (" | arts[:3]=")
        ++ previewList arts ++ (" grps[:3]="),
      (" vers[:3]=") ++ previewList vers,
      by simp [alignErrMsg, String.append_assoc]⟩
  · exact ⟨("Dependency lists not aligned: art=") ++ toString arts.length ++ (" grp=")
        ++ toString grps.length ++ (" ver=") ++ toString vers.length ++ (" | arts[:3]=")
        ++ previewList arts ++ (" grps[:3]=") ++ previewList grps ++ (" vers[:3]="),
      (""),
      by simp [alignErrMsg, String.append_assoc]⟩

/-- Unfolding equation for maven_dep_rows with the lets expanded. -/
theorem maven_dep_rows_eqn (a g v : Matches) :
    maven_dep_rows a g v =
      (if (xml_texts a).length = (xml_texts g).length
          ∧ (xml_texts g).length = (xml_texts v).length then
         Except.ok ((List.range (xml_texts a).length).map (fun i =>
           ⟨(xml_texts g).getD i (""), (xml_texts a).getD i (""), (xml_texts v).getD i ("")⟩))
       else Except.error (alignErrMsg (xml_texts a) (xml_texts g) (xml_texts v))) := rfl

/-- Unfolding equation for one probe step. -/
theorem probeDesired_cons (k : String) (rest : List String) (desired : List (String × String)) :
    probeDesired (k :: rest) desired =
      (match dget desired k with
       | Option.some v => pyStrip v
       | Option.none => probeDesired rest desired) := rfl

/-- Claim C1 (counterexample): with an explicit property reference whose
property resolves to the empty string and a non-empty managed value,
resolve_version returns the managed value with pluginManagement
provenance, not the empty value with property provenance the claim
asserts. -/
theorem claim_C1_counterexample :
    resolve_version ("$\x7bx\x7d") ("1.2.3") [(("x"), (""))] = (("1.2.3"), ("pluginManagement"))
    ∧ resolve_version ("$\x7bx\x7d") ("1.2.3") [(("x"), (""))] ≠ (("") , ("property:x")) :=
  ⟨by decide, by decide⟩

/-- Claim C1 (amended): for an explicit value that is a property
reference, a non-empty trimmed property value is returned with
provenance naming the property regardless of the managed value; when the
property lookup yields the empty string, resolution falls through and
behaves exactly as if the explicit value were absent. -/
theorem claim_C1_amended (explicit managed : String) (props : List (String × String))
    (h : maven_is_property_ref explicit = true) :
    (pyStrip (dgetD props (maven_prop_name explicit) ("")) ≠ ("") →
      resolve_version explicit managed props
        = (pyStrip (dgetD props (maven_prop_name explicit) ("")),
           ("property:") ++ maven_prop_name explicit)) ∧
    (pyStrip (dgetD props (maven_prop_name explicit) ("")) = ("") →
      resolve_version explicit managed props = resolve_version ("") managed props) :=
  resolve_explicit_ref explicit managed props h

/-- Witness for claim C1 at a concrete resolvable reference. -/
theorem claim_C1_witness :
    resolve_version ("$\x7bx\x7d") ("0.1") [(("x"), ("1.9"))] = (("1.9"), ("property:x")) := by
  have h := (claim_C1_amended ("$\x7bx\x7d") ("0.1") [(("x"), ("1.9"))] (by decide)).1 (by decide)
  exact h.trans (by decide)

/-- Claim C2: for a valid mode, maven_enforce_plan succeeds and emits, in
input-row order, exactly the rows admitted by the mode (all mode, or a
current version that is not a property reference) whose probed desired
value is non-empty and differs from the trimmed current version. -/
theorem claim_C2_plan_characterization (rows : List DepRow) (desired : List (String × String))
    (mode : String) (h : mode = ("literal") ∨ mode = ("all")) :
    maven_enforce_plan rows desired mode = Except.ok (rows.filterMap (planEmit mode desired)) := by
  unfold maven_enforce_plan
  rw [if_neg (by
    rintro ⟨h1, h2⟩
    rcases h with hm | hm
    · exact h1 hm
    · exact h2 hm)]
  rw [planRows_filterMap mode desired rows h]

/-- Witness for claim C2 on the specification example row. -/
theorem claim_C2_witness :
    maven_enforce_plan [⟨("com.x"), ("a"), ("1.0")⟩] [(("com.x:a"), ("1.1"))] ("literal")
      = Except.ok [⟨("com.x"), ("a"), ("1.0"), ("1.1")⟩] := by
  rw [claim_C2_plan_characterization _ _ _ (Or.inl rfl)]
  rfl

/-- Claim C3 (counterexample): on a two-key mapping the pom_reader copy of
xml_texts takes the first value in insertion order, which differs from the
value selected by sorting the keys lexicographically as the main copy
does, so the claim fails for that copy. -/
theorem claim_C3_counterexample :
    PomReader.xml_texts (Matches.list [MatchItem.dict [(("b"), ("1")), (("a"), ("2"))]]) = [("1")]
    ∧ xml_texts (Matches.list [MatchItem.dict [(("b"), ("1")), (("a"), ("2"))]]) = [("2")]
    ∧ (([("1")] : List String) ≠ ([("2")] : List String)) :=
  ⟨by decide, by decide, by decide⟩

/-- Claim C3 (amended): the copy of xml_texts in
src/filter_plugins/pom_filters.py selects the contributed value of a
multi-key mapping by sorting its items, so its output is invariant under
any reordering of the mapping entries; the pom_reader copy instead takes
the first value in iteration order. -/
theorem claim_C3_amended (d e : List (String × String)) (h : d.Perm e) :
    xml_texts (Matches.list [MatchItem.dict d]) = xml_texts (Matches.list [MatchItem.dict e]) := by
  cases d with
  | nil =>
    rw [← h.nil_eq]
  | cons x xs =>
    cases e with
    | nil =>
      have h2 := h.length_eq
      simp at h2
    | cons y ys =>
      show [pyStrip (headVal (dictOf (pySortPairs (x :: xs))))]
        = [pyStrip (headVal (dictOf (pySortPairs (y :: ys))))]
      rw [pySortPairs_perm_eq _ _ h]

/-- Witness for claim C3 on a concrete permutation of a two-key mapping. -/
theorem claim_C3_witness :
    xml_texts (Matches.list [MatchItem.dict [(("b"), ("1")), (("a"), ("2"))]])
      = xml_texts (Matches.list [MatchItem.dict [(("a"), ("2")), (("b"), ("1"))]]) :=
  claim_C3_amended _ _ (by decide)

/-- Claim C4: resolve_version reports the none provenance exactly when its
effective value is empty, and every record emitted by maven_plugins and
maven_plugin_deps has source none exactly when its version is empty. -/
theorem claim_C4_source_none_iff :
    (∀ (e m : String) (props : List (String × String)),
        ((resolve_version e m props).2 = ("none")) ↔ ((resolve_version e m props).1 = (""))) ∧
    (∀ (root : Element) (props : List (String × String)) (rec : PluginRec),
        rec ∈ maven_plugins root props → ((rec.source = ("none")) ↔ (rec.version = ("")))) ∧
    (∀ (root : Element) (props : List (String × String)) (rec : PluginDepRec),
        rec ∈ maven_plugin_deps root props → ((rec.source = ("none")) ↔ (rec.version = ("")))) :=
  ⟨resolve_version_none_iff, maven_plugins_none_iff, maven_plugin_deps_none_iff⟩

/-- Witness for claim C4 on a concrete one-plugin document. -/
theorem claim_C4_witness :
    ((PluginRec.mk ("maven-compiler-plugin") ("3.5.1") ("explicit")).source = ("none"))
      ↔ ((PluginRec.mk ("maven-compiler-plugin") ("3.5.1") ("explicit")).version = ("")) :=
  claim_C4_source_none_iff.2.1
    (Element.node ("project") Option.none
      [Element.node ("build") Option.none
        [Element.node ("plugins") Option.none
          [Element.node ("plugin") Option.none
            [Element.node ("artifactId") (Option.some ("maven-compiler-plugin")) [],
             Element.node ("version") (Option.some ("3.5.1")) []]]]])
    [] (PluginRec.mk ("maven-compiler-plugin") ("3.5.1") ("explicit")) (by decide)

/-- Claim C5: with both identifiers non-empty after trimming and
lower-casing, the probe list is the composite key then the bare artifact
key; the composite key wins whenever present, the bare key is consulted
only otherwise; and on the specification example the plan carries the
composite desired value 2.0. -/
theorem claim_C5_lookup_precedence (r : DepRow) (desired : List (String × String))
    (h1 : pyLower (pyStrip r.groupId) ≠ ("")) (h2 : pyLower (pyStrip r.artifactId) ≠ ("")) :
    (lookupKeys r = [pyLower (pyStrip r.groupId) ++ (":") ++ pyLower (pyStrip r.artifactId),
        pyLower (pyStrip r.artifactId)])
    ∧ (dmem desired (pyLower (pyStrip r.groupId) ++ (":") ++ pyLower (pyStrip r.artifactId))
          = true →
        probeDesired (lookupKeys r) desired
          = pyStrip (dgetD desired
              (pyLower (pyStrip r.groupId) ++ (":") ++ pyLower (pyStrip r.artifactId)) ("")))
    ∧ (dmem desired (pyLower (pyStrip r.groupId) ++ (":") ++ pyLower (pyStrip r.artifactId))
          = false →
        probeDesired (lookupKeys r) desired
          = (match dget desired (pyLower (pyStrip r.artifactId)) with
             | Option.some v => pyStrip v
             | Option.none => ("")))
    ∧ maven_enforce_plan [⟨("org.apache"), ("maven-foo"), ("1.0")⟩]
        [(("org.apache:maven-foo"), ("2.0")), (("maven-foo"), ("1.0"))] ("literal")
        = Except.ok [⟨("org.apache"), ("maven-foo"), ("1.0"), ("2.0")⟩] := by
  refine ⟨lookupKeys_both r h1 h2, ?_, ?_, by rfl⟩
  · intro hmem
    rw [lookupKeys_both r h1 h2, probeDesired_cons]
    cases hv : dget desired
        (pyLower (pyStrip r.groupId) ++ (":") ++ pyLower (pyStrip r.artifactId)) with
    | none =>
      unfold dmem at hmem
      rw [hv] at hmem
      simp at hmem
    | some v =>
      unfold dgetD
      rw [hv]
      rfl
  · intro hnmem
    rw [lookupKeys_both r h1 h2, probeDesired_cons]
    have hv : dget desired
        (pyLower (pyStrip r.groupId) ++ (":") ++ pyLower (pyStrip r.artifactId))
        = Option.none := by
      unfold dmem at hnmem
      exact Option.not_isSome_iff_eq_none.mp (by simp [hnmem])
    rw [hv, probeDesired_cons]
    cases hw : dget desired (pyLower (pyStrip r.artifactId)) <;> rfl

/-- Witness for claim C5 on the specification example. -/
theorem claim_C5_witness :
    probeDesired (lookupKeys ⟨("org.apache"), ("maven-foo"), ("1.0")⟩)
        [(("org.apache:maven-foo"), ("2.0")), (("maven-foo"), ("1.0"))] = ("2.0") := by
  have h := (claim_C5_lookup_precedence ⟨("org.apache"), ("maven-foo"), ("1.0")⟩
    [(("org.apache:maven-foo"), ("2.0")), (("maven-foo"), ("1.0"))]
    (by decide) (by decide)).2.1 (by decide)
  exact h.trans (by decide)

/-- Claim C6: maven_is_property_ref accepts exactly the strings whose
whole trimmed form is a dollar-brace frame around one or more characters
other than a closing brace, and on every rejected string, in particular
one containing a reference only as a proper substring, maven_prop_name
returns the empty string. -/
theorem claim_C6_anchored_ref (s : String) :
    ((maven_is_property_ref s = true) ↔
      ∃ name : String, name ≠ ("") ∧ (∀ c ∈ name.data, (c == '\x7d') = false) ∧
        pyStrip s = ("$\x7b") ++ name ++ ("\x7d"))
    ∧ (maven_is_property_ref s = false → maven_prop_name s = ("")) :=
  ⟨is_ref_iff_shape s, prop_name_of_not_ref s⟩

/-- Witness for claim C6 on a substring occurrence and a padded reference. -/
theorem claim_C6_witness :
    maven_is_property_ref ("1.0-$\x7bsuffix\x7d") = false
    ∧ maven_prop_name ("1.0-$\x7bsuffix\x7d") = ("")
    ∧ maven_is_property_ref (" $\x7bx\x7d ") = true :=
  ⟨by decide, (claim_C6_anchored_ref ("1.0-$\x7bsuffix\x7d")).2 (by decide),
   (claim_C6_anchored_ref (" $\x7bx\x7d ")).1.mpr ⟨("x"), by decide, by decide, by decide⟩⟩

/-- Claim C7: maven_dep_rows fails exactly when the three flattened lists
have unequal lengths, with a diagnostic containing the three lengths and
a preview of the head of each list; on aligned lists it returns the
index-wise pairing in order. -/
theorem claim_C7_alignment (a g v : Matches) :
    (¬ ((xml_texts a).length = (xml_texts g).length
        ∧ (xml_texts g).length = (xml_texts v).length) →
      maven_dep_rows a g v
          = Except.error (alignErrMsg (xml_texts a) (xml_texts g) (xml_texts v))
      ∧ ∀ s ∈ [toString (xml_texts a).length, toString (xml_texts g).length,
               toString (xml_texts v).length, previewList (xml_texts a),
               previewList (xml_texts g), previewList (xml_texts v)],
          ∃ pre post : String,
            alignErrMsg (xml_texts a) (xml_texts g) (xml_texts v) = pre ++ s ++ post)
    ∧ (((xml_texts a).length = (xml_texts g).length
        ∧ (xml_texts g).length = (xml_texts v).length) →
      ∃ rows : List DepRow, maven_dep_rows a g v = Except.ok rows
        ∧ rows.length = (xml_texts a).length
        ∧ ∀ i : Nat, i < (xml_texts a).length →
            rows.getD i ⟨("") , ("") , ("")⟩
              = ⟨(xml_texts g).getD i (""), (xml_texts a).getD i (""),
                 (xml_texts v).getD i ("")⟩) := by
  constructor
  · intro hne
    refine ⟨?_, alignErrMsg_contains _ _ _⟩
    rw [maven_dep_rows_eqn, if_neg hne]
  · intro he
    refine ⟨(List.range (xml_texts a).length).map (fun i =>
        ⟨(xml_texts g).getD i (""), (xml_texts a).getD i (""), (xml_texts v).getD i ("")⟩),
      ?_, ?_, ?_⟩
    · rw [maven_dep_rows_eqn, if_pos he]
    · simp
    · intro i hi
      rw [List.getD_eq_getElem?_getD, List.getElem?_map, List.getElem?_range hi]
      rfl

/-- Witness for claim C7 on a concrete misaligned input. -/
theorem claim_C7_witness :
    maven_dep_rows (Matches.list [MatchItem.str ("a1")]) (Matches.list []) (Matches.list [])
      = Except.error (alignErrMsg [("a1")] [] []) := by
  have h := (claim_C7_alignment (Matches.list [MatchItem.str ("a1")]) (Matches.list [])
    (Matches.list [])).1 (by decide)
  exact h.1

/-- Claim C8: maven_normalize_desired is idempotent: feeding its output
back through it reproduces the output unchanged. -/
theorem claim_C8_idempotent (raw : List (String × Option String)) :
    maven_normalize_desired
        ((maven_normalize_desired raw).map (fun e => (e.1, Option.some e.2)))
      = maven_normalize_desired raw := by
  have h1 : ∀ e ∈ maven_normalize_desired raw, normalEntry e := by
    intro e he
    exact mnd_fold_mem raw [] (by intro e2 he2; simp at he2) e he
  have h2 : ((maven_normalize_desired raw).map Prod.fst).Nodup :=
    mnd_fold_nodup raw [] (by simp)
  have h3 : ∀ e ∈ maven_normalize_desired raw, dget [] e.1 = Option.none := fun e he => rfl
  have h4 := mnd_fold_normal_append (maven_normalize_desired raw) [] h1 h2 h3
  exact h4.trans (by simp)

/-- Claim C9: the managed-version table maps an artifactId to the version
of the last pluginManagement entry for it in document order. -/
theorem claim_C9_last_wins (root : Element) (aid : String) (e : String × String)
    (h : ((pmEntries root).filter (fun q => decide (q.1 = aid))).getLast? = Option.some e) :
    dget (managedPluginVersions root) aid = Option.some e.2 := by
  unfold managedPluginVersions
  rw [managed_fold (pmPluginNodes root) [] aid]
  unfold pmEntries at h
  rw [h]
  rfl

/-- Witness for claim C9 on a document with two entries for one artifact. -/
theorem claim_C9_witness :
    dget (managedPluginVersions (Element.node ("project") Option.none
      [Element.node ("build") Option.none
        [Element.node ("pluginManagement") Option.none
          [Element.node ("plugins") Option.none
            [Element.node ("plugin") Option.none
              [Element.node ("artifactId") (Option.some ("p")) [],
               Element.node ("version") (Option.some ("1.0")) []],
             Element.node ("plugin") Option.none
              [Element.node ("artifactId") (Option.some ("p")) [],
               Element.node ("version") (Option.some ("2.0")) []]]]]])) ("p")
      = Option.some ("2.0") :=
  claim_C9_last_wins _ ("p") ((("p"), ("2.0"))) (by rfl)

/-- Claim C10: the three copies of resolve_version are extensionally
equal on every explicit value, managed value, and string-valued property
table. -/
theorem claim_C10_copies_equal (e m : String) (props : List (String × String)) :
    (resolve_version e m props = MavenFilters.resolve_version e m props)
    ∧ (MavenFilters.resolve_version e m props = PomReader.resolve_version e m props) := by
  constructor
  · rw [mf_resolve_version_eqn, resolve_version_eq, resolveOne_copies_eq props e ("explicit"),
      resolveOne_copies_eq props m ("pluginManagement")]
  · rfl
